import Mathlib

/-!
# Verification of the WiredTiger session/cursor cache

A shallow embedding of `WiredTigerSession` and `WiredTigerSessionCache`
(source: `src/mongo/db/storage/wiredtiger/wiredtiger_session_cache.{h,cpp}`).

Modelling conventions:
* WT handles (`WT_CURSOR*`, session identities) are `Nat`; `String` stands for
  `std::string` configuration strings.
* Machine integers: `uint64_t` counters (`_cursorGen`, generations, epochs) are
  `Nat` (they never overflow in any reachable execution and are never
  subtracted below zero: every cached generation is `<= _cursorGen`); the
  signed `int _cursorsOut` is `Int`; the signed tunable
  `gWiredTigerCursorCacheSize` is `Int`; the packed 32-bit atomic
  `_shuttingDown` word is `Nat` with explicit `% 2^32` where its arithmetic
  matters (see `blockShutdownEnter` / `blockShutdownLeave`).
* `Date_t` timestamps are `Int` milliseconds; the sentinel `Date_t::min()` is
  `Option.none`.
* The model is sequential: each operation runs atomically, so a `BlockShutdown`
  scope opened and closed inside one operation has no net effect on the packed
  word, and the double epoch check in `releaseSession` (outside then inside the
  pool lock) reads the same epoch twice.
* Fallible code (`invariant`, the `getSession` shutdown assertion) returns
  `Except String _`; an `.error` is a fatal invariant failure.
* Ghost state records externally observable engine calls: `resetTrace`
  (cursor `reset` calls), `closedCursors` (cursor `close` calls),
  `appliedConfigs` (session `reconfigure` calls), `destroyed`
  (deleted sessions, by identity).
-/

/-- One entry of a session's cursor cache (`WiredTigerCachedCursor`). -/
structure WiredTigerCachedCursor where
  /-- `_id`: source id assigned to each URI. -/
  id : Nat
  /-- `_gen`: generation, used to age out old cursors. -/
  gen : Nat
  /-- `_cursor`: the WT cursor handle. -/
  cursor : Nat
  /-- `_config`: cursor config; cursors are not served for different configs. -/
  config : String
deriving DecidableEq, Repr

/-- A `WiredTigerSession`: one WT session handle plus its private cursor
cache. `sid` is a ghost identity standing for the object's address. -/
structure WiredTigerSession where
  sid : Nat
  epoch : Nat
  cursors : List WiredTigerCachedCursor
  cursorGen : Nat
  cursorsOut : Int
  idleExpireTime : Option Int
  undoConfigStrings : List String
  appliedConfigs : List String
  resetTrace : List Nat
  closedCursors : List Nat
deriving DecidableEq, Repr

namespace WiredTigerSession

/-- A freshly constructed session (`WiredTigerSession::WiredTigerSession`):
empty cursor cache, `_cursorGen = 0`, `_cursorsOut = 0`,
`_idleExpireTime = Date_t::min()`. -/
def mkSession (sid epoch : Nat) : WiredTigerSession :=
  { sid := sid
    epoch := epoch
    cursors := []
    cursorGen := 0
    cursorsOut := 0
    idleExpireTime := none
    undoConfigStrings := []
    appliedConfigs := []
    resetTrace := []
    closedCursors := [] }

/-- The linear scan of `getCachedCursor`: find the first entry (from the
most-recently-released front) whose `_id` and `_config` both match; return it
with the remaining list (the entry erased in place). -/
def findCursor (id : Nat) (config : String) :
    List WiredTigerCachedCursor →
      Option (WiredTigerCachedCursor × List WiredTigerCachedCursor)
  | [] => none
  | c :: rest =>
    if c.id = id ∧ c.config = config then some (c, rest)
    else
      match findCursor id config rest with
      | some (f, l) => some (f, c :: l)
      | none => none

/-- `WiredTigerSession::getCachedCursor(id, config)`: exact (id, config) match
from the front; on a hit, erase the entry, bump `_cursorsOut`, return the
cursor; on a miss return null (`Option.none`). -/
def getCachedCursor (id : Nat) (config : String) (s : WiredTigerSession) :
    Option Nat × WiredTigerSession :=
  match findCursor id config s.cursors with
  | some (c, rest) =>
    (some c.cursor, { s with cursors := rest, cursorsOut := s.cursorsOut + 1 })
  | none => (none, s)

/-- The eviction loop of `releaseCursor`, which pops entries from the back of
the list while `_cursorGen - _cursors.back()._gen > cacheSize`, closing each
popped cursor.  The C++ list's back is the head of the reversed list, so the
loop is embedded as recursion on the reversed cursor list; the second
component collects the closed cursor handles in closing order. -/
def evictRev (gen cacheSize : Nat) :
    List WiredTigerCachedCursor → List WiredTigerCachedCursor × List Nat
  | [] => ([], [])
  | c :: rest =>
    if gen - c.gen > cacheSize then
      let r := evictRev gen cacheSize rest
      (r.1, c.cursor :: r.2)
    else (c :: rest, [])

/-- `WiredTigerSession::releaseCursor(id, cursor, config)`.  Under a
`BlockShutdown` scope it first checks `_cache->isShuttingDown()` and returns
with no effect if so (the cursor is abandoned).  Otherwise it decrements
`_cursorsOut`, resets the cursor, pushes a new entry with generation
`_cursorGen++` to the front, and runs the eviction loop with
`cacheSize = abs(gWiredTigerCursorCacheSize.load())` (the tunable is read
dynamically; here it is the `cacheSizeTunable` argument). -/
def releaseCursor (shutdown : Bool) (cacheSizeTunable : Int)
    (id cursor : Nat) (config : String) (s : WiredTigerSession) :
    WiredTigerSession :=
  if shutdown then s
  else
    let s1 : WiredTigerSession :=
      { s with
        cursorsOut := s.cursorsOut - 1
        resetTrace := cursor :: s.resetTrace
        cursors := ⟨id, s.cursorGen, cursor, config⟩ :: s.cursors
        cursorGen := s.cursorGen + 1 }
    let cacheSize := cacheSizeTunable.natAbs
    let r := evictRev s1.cursorGen cacheSize s1.cursors.reverse
    { s1 with
      cursors := r.1.reverse
      closedCursors := s1.closedCursors ++ r.2 }

/-- `WiredTigerSession::closeCursor(cursor)`: close an uncached cursor and
decrement `_cursorsOut`. -/
def closeCursor (cursor : Nat) (s : WiredTigerSession) : WiredTigerSession :=
  { s with
    cursorsOut := s.cursorsOut - 1
    closedCursors := s.closedCursors ++ [cursor] }

/-- `WiredTigerSession::closeAllCursors(uri)`: close and erase every cached
cursor whose handle's uri matches (all of them when `uri` is empty).
`cursorUri` is the engine's handle-to-uri map (`cursor->uri`); handles are
never null in the model. -/
def closeAllCursors (cursorUri : Nat → String) (uri : String)
    (s : WiredTigerSession) : WiredTigerSession :=
  let all := uri = ""
  let doomed := s.cursors.filter (fun c => all ∨ uri = cursorUri c.cursor)
  { s with
    cursors := s.cursors.filter (fun c => ¬(all ∨ uri = cursorUri c.cursor))
    closedCursors := s.closedCursors ++ doomed.map (fun c => c.cursor) }

/-- `WiredTigerSession::reconfigure(newConfig, undoConfig)`: if
`newConfig == undoConfig` erase `undoConfig` from `_undoConfigStrings`,
otherwise record it; then apply `newConfig` to the WT session. -/
def reconfigure (newConfig undoConfig : String) (s : WiredTigerSession) :
    WiredTigerSession :=
  let undo :=
    if newConfig = undoConfig then
      s.undoConfigStrings.filter (fun u => u ≠ undoConfig)
    else if undoConfig ∈ s.undoConfigStrings then s.undoConfigStrings
    else undoConfig :: s.undoConfigStrings
  { s with
    undoConfigStrings := undo
    appliedConfigs := s.appliedConfigs ++ [newConfig] }

/-- `WiredTigerSession::resetSessionConfiguration()`: apply every recorded
undo config string to the WT session, then clear the set. -/
def resetSessionConfiguration (s : WiredTigerSession) : WiredTigerSession :=
  { s with
    appliedConfigs := s.appliedConfigs ++ s.undoConfigStrings
    undoConfigStrings := [] }

end WiredTigerSession

/-- POSIX `ENOENT` (no such file or directory), as returned by
`WT_SESSION::open_cursor` for a missing table. -/
def ENOENT : Int := 2

/-- POSIX `EBUSY`, returned by `WT_SESSION::open_cursor` during concurrent
verify/salvage and similar maintenance. -/
def EBUSY : Int := 16

/-- Observable outcome of the anonymous helper `_openCursor`. -/
inductive OpenCursorOutcome where
  /-- `open_cursor` returned 0: the fresh cursor handle is handed back. -/
  | ok (cursor : Nat)
  /-- `ret == EBUSY`: `uassertStatusOK(status)` raises a retryable,
  non-fatal error. -/
  | busy (uri config : String)
  /-- `ret == ENOENT`: `uasserted(ErrorCodes::CursorNotFound, ...)` raises a
  typed, recoverable error naming the uri and config. -/
  | cursorNotFound (uri config : String)
  /-- any other nonzero `ret`: `LOGV2_FATAL_NOTRACE(50882, ...)` logs the
  uri, config and underlying error and terminates the process. -/
  | fatal (uri config : String) (err : Int)
deriving DecidableEq, Repr

/-- `_openCursor(session, uri, config, &cursorOut)` (anonymous namespace of
`wiredtiger_session_cache.cpp`).  `ret` is the engine's `open_cursor` return
status and `cursor` the handle it produced when `ret == 0`. -/
def openCursor (ret : Int) (cursor : Nat) (uri config : String) :
    OpenCursorOutcome :=
  if ret = 0 then .ok cursor
  else if ret = EBUSY then .busy uri config
  else if ret = ENOENT then .cursorNotFound uri config
  else .fatal uri config ret

/-- `WiredTigerSession::getNewCursor(uri, config)`: call `_openCursor`,
bypassing the cursor cache; on success increment `_cursorsOut`.  On any
non-`ok` outcome the exception (or fatal abort) propagates before the
increment, leaving the session unchanged. -/
def WiredTigerSession.getNewCursor (ret : Int) (cursor : Nat)
    (uri config : String) (s : WiredTigerSession) :
    OpenCursorOutcome × WiredTigerSession :=
  match openCursor ret cursor uri config with
  | .ok c => (.ok c, { s with cursorsOut := s.cursorsOut + 1 })
  | r => (r, s)

/-- `WiredTigerSessionCache::kShuttingDownMask = 1 << 31`: the sticky top bit
of the packed `_shuttingDown` word (low 31 bits count the in-flight
`BlockShutdown` scopes). -/
def kShuttingDownMask : Nat := 1 <<< 31

/-- The `WiredTigerSessionCache`: pool of idle sessions, epoch counter,
packed shutdown word, and the hybrid-caching tunable
`gWiredTigerCursorCacheSize` (read dynamically on every release).  `nextSid`
is the ghost allocator for session identities, `destroyed` the ghost list of
deleted sessions. -/
structure WiredTigerSessionCache where
  /-- `_sessions`: idle pool, most recently released at the back. -/
  sessions : List WiredTigerSession
  /-- `_epoch`: bumped by every `closeAll`. -/
  epoch : Nat
  /-- `_shuttingDown`: packed 32-bit word (count | sticky top bit). -/
  shuttingDownWord : Nat
  /-- `gWiredTigerCursorCacheSize.load()`: signed size tunable. -/
  cursorCacheSize : Int
  nextSid : Nat
  destroyed : List Nat
deriving DecidableEq, Repr

namespace WiredTigerSessionCache

/-- `WiredTigerSessionCache::isShuttingDown()`:
`_shuttingDown.load() & kShuttingDownMask` as a boolean. -/
def isShuttingDown (c : WiredTigerSessionCache) : Bool :=
  c.shuttingDownWord &&& kShuttingDownMask != 0

/-- `WiredTigerSessionCache::isEngineCachingCursors()`:
`gWiredTigerCursorCacheSize.load() <= 0`. -/
def isEngineCachingCursors (c : WiredTigerSessionCache) : Bool :=
  c.cursorCacheSize ≤ 0

/-- `WiredTigerSessionCache::closeAll()`: bump `_epoch`, swap the whole pool
out under the lock, then delete every swapped-out session. -/
def closeAll (c : WiredTigerSessionCache) : WiredTigerSessionCache :=
  { c with
    epoch := c.epoch + 1
    sessions := []
    destroyed := c.destroyed ++ c.sessions.map (fun s => s.sid) }

/-- `WiredTigerSessionCache::shuttingDown()`: atomically set the sticky bit
with `fetchAndBitOr(kShuttingDownMask)`; if it was already set, another
caller won and we return.  Otherwise spin until the blocker count drains to
zero — in the sequential model every `BlockShutdown` scope has already
exited, so the spin ends at once — and run `closeAll()`. -/
def shuttingDown (c : WiredTigerSessionCache) : WiredTigerSessionCache :=
  let old := c.shuttingDownWord
  let c1 := { c with shuttingDownWord := old ||| kShuttingDownMask }
  if old &&& kShuttingDownMask != 0 then c1 else closeAll c1

/-- `WiredTigerSessionCache::restart()`:
`_shuttingDown.fetchAndBitAnd(~kShuttingDownMask)`; the complement of the
mask in a 32-bit word is `kShuttingDownMask - 1`. -/
def restart (c : WiredTigerSessionCache) : WiredTigerSessionCache :=
  { c with shuttingDownWord := c.shuttingDownWord &&& (kShuttingDownMask - 1) }

/-- `WiredTigerSessionCache::getSession()`: assert the sticky bit is clear
(`invariant(!(_shuttingDown.load() & kShuttingDownMask))`); then pop the most
recently used pooled session (the back), clearing its idle-expire time to the
sentinel, or construct a fresh session stamped with the current epoch. -/
def getSession (c : WiredTigerSessionCache) :
    Except String (WiredTigerSession × WiredTigerSessionCache) :=
  if c.shuttingDownWord &&& kShuttingDownMask != 0 then
    .error "invariant failure: getSession during shutdown"
  else
    match c.sessions.getLast? with
    | some s =>
      .ok ({ s with idleExpireTime := none },
           { c with sessions := c.sessions.dropLast })
    | none =>
      .ok (WiredTigerSession.mkSession c.nextSid c.epoch,
           { c with nextSid := c.nextSid + 1 })

/-- `WiredTigerSessionCache::releaseSession(session)`.  Asserts
`cursorsOut() == 0 || isShuttingDown()`.  Under a `BlockShutdown` scope: if
shutting down, null the WT handle and delete the session (it is never
pooled).  Otherwise the engine's `transaction_pinned_range` is asserted zero
(the engine model reports 0 for idle sessions); in hybrid mode
(`gWiredTigerCursorCacheSize.load() < 0`) close all cached cursors; reset the
session configuration; reset the WT session; stamp `idleExpireTime = now`;
re-pool the session iff its epoch equals the current epoch (the out-of-lock
check and the under-lock recheck read the same value in the sequential
model), else assert `epoch < current` and delete it. -/
def releaseSession (cursorUri : Nat → String) (now : Int)
    (s : WiredTigerSession) (c : WiredTigerSessionCache) :
    Except String WiredTigerSessionCache :=
  if ¬(s.cursorsOut = 0 ∨ isShuttingDown c) then
    .error "invariant failure: cursors still out"
  else if isShuttingDown c then
    .ok { c with destroyed := c.destroyed ++ [s.sid] }
  else
    let s1 :=
      if c.cursorCacheSize < 0 then s.closeAllCursors cursorUri "" else s
    let s2 := s1.resetSessionConfiguration
    let s3 := { s2 with idleExpireTime := some now }
    if s3.epoch = c.epoch then
      .ok { c with sessions := c.sessions ++ [s3] }
    else if s3.epoch < c.epoch then
      .ok { c with destroyed := c.destroyed ++ [s3.sid] }
    else
      .error "invariant failure: session epoch ahead of cache epoch"

/-- `WiredTigerSessionCache::closeExpiredIdleSessions(idleTimeMillis)`:
no-op when the timeout is `<= 0`; otherwise compute
`cutoffTime = now - idleTimeMillis`, assert every pooled session carries a
real (non-sentinel) idle-expire time, erase from the pool every session whose
idle-expire time is strictly before the cutoff, and delete them outside the
lock. -/
def closeExpiredIdleSessions (now idleTimeMillis : Int)
    (c : WiredTigerSessionCache) : Except String WiredTigerSessionCache :=
  if idleTimeMillis ≤ 0 then .ok c
  else
    let cutoffTime := now - idleTimeMillis
    if c.sessions.any (fun s => s.idleExpireTime = none) then
      .error "invariant failure: pooled session with sentinel idle time"
    else
      let expired : WiredTigerSession → Bool := fun s =>
        match s.idleExpireTime with
        | some t => decide (t < cutoffTime)
        | none => false
      .ok { c with
            sessions := c.sessions.filter (fun s => !expired s)
            destroyed := c.destroyed ++
              (c.sessions.filter expired).map (fun s => s.sid) }

/-- `WiredTigerSessionCache::closeAllCursors(uri)`: forward to every pooled
session. -/
def closeAllCursorsCache (cursorUri : Nat → String) (uri : String)
    (c : WiredTigerSessionCache) : WiredTigerSessionCache :=
  { c with sessions := c.sessions.map (fun s => s.closeAllCursors cursorUri uri) }

end WiredTigerSessionCache

/-- The public operations of `WiredTigerSessionCache`, used to state that the
sticky shutdown bit survives everything except `restart()`. -/
inductive CacheOp where
  | getSessionOp
  | releaseSessionOp (now : Int) (s : WiredTigerSession)
  | closeAllOp
  | closeExpiredIdleSessionsOp (now idleTimeMillis : Int)
  | closeAllCursorsOp (uri : String)
  | shuttingDownOp
  | restartOp
deriving DecidableEq

/-- Run one `CacheOp`.  An operation whose internal `invariant` fails kills
the process; the cache state is left as it was. -/
def applyCacheOp (cursorUri : Nat → String) (op : CacheOp)
    (c : WiredTigerSessionCache) : WiredTigerSessionCache :=
  match op with
  | .getSessionOp =>
    match c.getSession with
    | .ok (_, c') => c'
    | .error _ => c
  | .releaseSessionOp now s =>
    match c.releaseSession cursorUri now s with
    | .ok c' => c'
    | .error _ => c
  | .closeAllOp => c.closeAll
  | .closeExpiredIdleSessionsOp now t =>
    match c.closeExpiredIdleSessions now t with
    | .ok c' => c'
    | .error _ => c
  | .closeAllCursorsOp uri => c.closeAllCursorsCache cursorUri uri
  | .shuttingDownOp => c.shuttingDown
  | .restartOp => c.restart

/-- Entry into or exit from a `WiredTigerSessionCache::BlockShutdown` scope. -/
inductive ScopeOp where
  | enter
  | leave
deriving DecidableEq, Repr

/-- `BlockShutdown::BlockShutdown`: `_shuttingDown.fetchAndAdd(1)` on the
packed 32-bit word (unsigned arithmetic modulo `2^32`). -/
def blockShutdownEnter (w : Nat) : Nat := (w + 1) % 2 ^ 32

/-- `BlockShutdown::~BlockShutdown`: `_shuttingDown.fetchAndSubtract(1)`,
i.e. addition of `2^32 - 1` modulo `2^32`. -/
def blockShutdownLeave (w : Nat) : Nat := (w + (2 ^ 32 - 1)) % 2 ^ 32

/-- Run a sequence of `BlockShutdown` scope entries and exits on the packed
word. -/
def runScopes (w : Nat) : List ScopeOp → Nat
  | [] => w
  | .enter :: t => runScopes (blockShutdownEnter w) t
  | .leave :: t => runScopes (blockShutdownLeave w) t

/-- Well-formedness of a scope sequence starting with `count` scopes already
in flight: exits are balanced by earlier entries, and the number of
simultaneously in-flight scopes never reaches `2^31` (a scope is a live stack
object, so this bounds the number of concurrent callers). -/
def scopesOk (count : Nat) : List ScopeOp → Bool
  | [] => true
  | .enter :: t => decide (count + 1 < 2 ^ 31) && scopesOk (count + 1) t
  | .leave :: t => decide (0 < count) && scopesOk (count - 1) t

/-- The number of scopes in flight after a sequence, starting from `count`. -/
def inflight (count : Nat) : List ScopeOp → Nat
  | [] => count
  | .enter :: t => inflight (count + 1) t
  | .leave :: t => inflight (count - 1) t

/-- A sequence of `releaseCursor` calls (id, cursor handle, config) on one
session, with the cache not shutting down and a fixed tunable. -/
def releaseSeq (tunable : Int) (ops : List (Nat × Nat × String))
    (s : WiredTigerSession) : WiredTigerSession :=
  ops.foldl
    (fun s op => WiredTigerSession.releaseCursor false tunable op.1 op.2.1 op.2.2 s) s

/-- Structural invariant of a session's cursor cache: generations strictly
increase from the back of the list to the front (cursors are pushed to the
front with a fresh, larger generation), and every cached generation predates
`_cursorGen`. -/
def CursorCacheInv (s : WiredTigerSession) : Prop :=
  s.cursors.reverse.Pairwise (fun a b => a.gen < b.gen)
    ∧ ∀ c ∈ s.cursors, c.gen < s.cursorGen

/-- A quiescent cache: empty pool, epoch 0, shutdown word 0. -/
def exampleCache (tunable : Int) : WiredTigerSessionCache :=
  { sessions := []
    epoch := 0
    shuttingDownWord := 0
    cursorCacheSize := tunable
    nextSid := 1
    destroyed := [] }

/-- A cache whose sticky shutdown bit is set (blocker count zero). -/
def exampleShutdownCache : WiredTigerSessionCache :=
  { exampleCache 1 with shuttingDownWord := kShuttingDownMask }

/-- A cache holding one pooled session that went idle at time 1000 ms. -/
def idleBoundaryCache : WiredTigerSessionCache :=
  { exampleCache 1 with
    sessions := [{ WiredTigerSession.mkSession 0 0 with idleExpireTime := some 1000 }] }

/-- A session holding one cached cursor (cached while the tunable was
positive). -/
def hybridZeroSession : WiredTigerSession :=
  { WiredTigerSession.mkSession 0 0 with cursors := [⟨1, 0, 7, "cfg"⟩] }

/-- A cache whose cursor-cache tunable has been lowered to 0 ("hybrid" per
the claim, which treats any value `<= 0` as hybrid mode). -/
def hybridZeroCache : WiredTigerSessionCache :=
  { exampleCache 0 with nextSid := 1 }

lemma blockShutdownLeave_eq (w : Nat) :
    blockShutdownLeave w = (w + (2 ^ 32 - 1)) % 2 ^ 32 := rfl

attribute [irreducible] blockShutdownLeave

namespace WiredTigerSession

lemma findCursor_eq_some {id : Nat} {config : String} :
    ∀ {l : List WiredTigerCachedCursor} {c : WiredTigerCachedCursor}
      {rest : List WiredTigerCachedCursor},
      findCursor id config l = some (c, rest) →
        c ∈ l ∧ c.id = id ∧ c.config = config := by
  intro l
  induction l with
  | nil => intro c rest h; simp [findCursor] at h
  | cons a t ih =>
    intro c rest h
    by_cases hc : a.id = id ∧ a.config = config
    · rw [findCursor, if_pos hc] at h
      obtain ⟨rfl, rfl⟩ : a = c ∧ t = rest := by
        simpa using h
      exact ⟨List.mem_cons_self a t, hc⟩
    · rw [findCursor, if_neg hc] at h
      cases hfind : findCursor id config t with
      | none => rw [hfind] at h; simp at h
      | some p =>
        rw [hfind] at h
        obtain ⟨rfl, rfl⟩ : p.1 = c ∧ a :: p.2 = rest := by
          cases p; simpa using h
        obtain ⟨hm, hi, hcf⟩ := ih hfind
        exact ⟨List.mem_cons_of_mem a hm, hi, hcf⟩

lemma findCursor_head {id : Nat} {config : String}
    (c : WiredTigerCachedCursor) (t : List WiredTigerCachedCursor)
    (hid : c.id = id) (hcfg : c.config = config) :
    findCursor id config (c :: t) = some (c, t) := by
  rw [findCursor, if_pos ⟨hid, hcfg⟩]

lemma evictRev_keep_last (gen cs : Nat) (e : WiredTigerCachedCursor)
    (hkeep : ¬(gen - e.gen > cs)) :
    ∀ l : List WiredTigerCachedCursor,
      ∃ l' cl, evictRev gen cs (l ++ [e]) = (l' ++ [e], cl) ∧ l' <:+ l := by
  intro l
  induction l with
  | nil =>
    exact ⟨[], [], by simp [evictRev, hkeep], List.suffix_refl _⟩
  | cons a t ih =>
    obtain ⟨l', cl, heq, hsuf⟩ := ih
    by_cases hc : gen - a.gen > cs
    · refine ⟨l', a.cursor :: cl, ?_, hsuf.trans (List.suffix_cons a t)⟩
      simp only [List.cons_append, evictRev, if_pos hc]
      rw [show t.append [e] = t ++ [e] from rfl, heq]
    · exact ⟨a :: t, [], by simp [evictRev, hc], List.suffix_refl _⟩

lemma evictRev_suffix (gen cs : Nat) :
    ∀ l : List WiredTigerCachedCursor, (evictRev gen cs l).1 <:+ l := by
  intro l
  induction l with
  | nil => simp [evictRev]
  | cons a t ih =>
    by_cases hc : gen - a.gen > cs
    · simp only [evictRev, if_pos hc]
      exact ih.trans (List.suffix_cons a t)
    · simp [evictRev, hc]

lemma evictRev_head_bound (gen cs : Nat) :
    ∀ (l : List WiredTigerCachedCursor) (c : WiredTigerCachedCursor)
      (rest : List WiredTigerCachedCursor),
      (evictRev gen cs l).1 = c :: rest → gen - c.gen ≤ cs := by
  intro l
  induction l with
  | nil => intro c rest h; simp [evictRev] at h
  | cons a t ih =>
    intro c rest h
    by_cases hc : gen - a.gen > cs
    · rw [evictRev] at h
      rw [if_pos hc] at h
      exact ih c rest h
    · rw [evictRev] at h
      rw [if_neg hc] at h
      obtain ⟨rfl, -⟩ : a = c ∧ t = rest := by simpa using h
      omega

lemma releaseCursor_cursors_eq (tunable : Int) (id hdl : Nat) (cfg : String)
    (s : WiredTigerSession) (hsize : 1 ≤ tunable.natAbs) :
    ∃ l' : List WiredTigerCachedCursor,
      (releaseCursor false tunable id hdl cfg s).cursors
          = ⟨id, s.cursorGen, hdl, cfg⟩ :: l'.reverse
      ∧ l' <:+ s.cursors.reverse
      ∧ (releaseCursor false tunable id hdl cfg s).cursorGen = s.cursorGen + 1
      ∧ (releaseCursor false tunable id hdl cfg s).cursorsOut = s.cursorsOut - 1 := by
  have hkeep : ¬(s.cursorGen + 1 - (⟨id, s.cursorGen, hdl, cfg⟩ :
      WiredTigerCachedCursor).gen > tunable.natAbs) := by
    simp only []
    omega
  obtain ⟨l', cl, heq, hsuf⟩ :=
    evictRev_keep_last (s.cursorGen + 1) tunable.natAbs _ hkeep s.cursors.reverse
  refine ⟨l', ?_, hsuf, ?_, ?_⟩ <;>
    simp [releaseCursor, heq, List.reverse_append]

/-- **C1 (cache fidelity).**  On a session whose owning cache is not shutting
down and whose cursor-cache size limit (`|gWiredTigerCursorCacheSize|`) is at
least 1, `releaseCursor(id, hdl, cfg)` leaves the released cursor at the
front of the cache; an immediately following `getCachedCursor(id, cfg)`
returns the same handle `hdl`, removes that entry from the cache and bumps
`_cursorsOut`; and `getCachedCursor(id, cfg')` for any `cfg' ≠ cfg` never
returns `hdl` (configuration matching is an exact string match).  The
hypothesis `hh` is the handle-ownership invariant: a checked-out handle is
not simultaneously present in the cursor cache. -/
theorem releaseCursor_cache_fidelity (tunable : Int) (id hdl : Nat)
    (cfg : String) (s : WiredTigerSession) (hsize : 1 ≤ tunable.natAbs)
    (hh : ∀ e ∈ s.cursors, e.cursor ≠ hdl) :
    (releaseCursor false tunable id hdl cfg s).cursors.head?
        = some ⟨id, s.cursorGen, hdl, cfg⟩
    ∧ (getCachedCursor id cfg (releaseCursor false tunable id hdl cfg s)).1
        = some hdl
    ∧ (getCachedCursor id cfg (releaseCursor false tunable id hdl cfg s)).2.cursors
        = (releaseCursor false tunable id hdl cfg s).cursors.tail
    ∧ (getCachedCursor id cfg (releaseCursor false tunable id hdl cfg s)).2.cursorsOut
        = (releaseCursor false tunable id hdl cfg s).cursorsOut + 1
    ∧ ∀ cfg' : String, cfg' ≠ cfg →
        (getCachedCursor id cfg' (releaseCursor false tunable id hdl cfg s)).1
          ≠ some hdl := by
  obtain ⟨l', hcur, hsuf, -, -⟩ :=
    releaseCursor_cursors_eq tunable id hdl cfg s hsize
  have hfind : findCursor id cfg (releaseCursor false tunable id hdl cfg s).cursors
      = some (⟨id, s.cursorGen, hdl, cfg⟩, l'.reverse) := by
    rw [hcur]
    exact findCursor_head _ _ rfl rfl
  refine ⟨by rw [hcur]; rfl, ?_, ?_, ?_, ?_⟩
  · simp [getCachedCursor, hfind]
  · simp only [getCachedCursor, hfind]
    rw [hcur]
    rfl
  · simp [getCachedCursor, hfind]
  · intro cfg' hne
    have hmem : ∀ f ∈ l'.reverse, f ∈ s.cursors := by
      intro f hf
      rw [List.mem_reverse] at hf
      have := hsuf.subset hf
      rwa [List.mem_reverse] at this
    rw [getCachedCursor, hcur]
    have hcond : ¬((⟨id, s.cursorGen, hdl, cfg⟩ :
        WiredTigerCachedCursor).id = id ∧ (⟨id, s.cursorGen, hdl, cfg⟩ :
        WiredTigerCachedCursor).config = cfg') := by
      intro hcond
      exact hne hcond.2.symm
    rw [findCursor, if_neg hcond]
    cases hf2 : findCursor id cfg' l'.reverse with
    | none => simp
    | some p =>
      obtain ⟨c2, rest2⟩ := p
      obtain ⟨hm2, -, -⟩ := findCursor_eq_some hf2
      have : c2.cursor ≠ hdl := hh c2 (hmem c2 hm2)
      simpa using this

end WiredTigerSession

/-- Witness for `releaseCursor_cache_fidelity` at tunable 5, id 7,
handle 42, config "cfg", on a fresh session. -/
theorem releaseCursor_cache_fidelity_witness :
    (1 ≤ (5 : Int).natAbs
      ∧ ∀ e ∈ (WiredTigerSession.mkSession 0 0).cursors, e.cursor ≠ 42)
    ∧ ((WiredTigerSession.releaseCursor false 5 7 42 "cfg"
          (WiredTigerSession.mkSession 0 0)).cursors.head?
        = some ⟨7, (WiredTigerSession.mkSession 0 0).cursorGen, 42, "cfg"⟩
    ∧ (WiredTigerSession.getCachedCursor 7 "cfg"
        (WiredTigerSession.releaseCursor false 5 7 42 "cfg"
          (WiredTigerSession.mkSession 0 0))).1 = some 42
    ∧ (WiredTigerSession.getCachedCursor 7 "cfg"
        (WiredTigerSession.releaseCursor false 5 7 42 "cfg"
          (WiredTigerSession.mkSession 0 0))).2.cursors
        = (WiredTigerSession.releaseCursor false 5 7 42 "cfg"
            (WiredTigerSession.mkSession 0 0)).cursors.tail
    ∧ (WiredTigerSession.getCachedCursor 7 "cfg"
        (WiredTigerSession.releaseCursor false 5 7 42 "cfg"
          (WiredTigerSession.mkSession 0 0))).2.cursorsOut
        = (WiredTigerSession.releaseCursor false 5 7 42 "cfg"
            (WiredTigerSession.mkSession 0 0)).cursorsOut + 1
    ∧ ∀ cfg' : String, cfg' ≠ "cfg" →
        (WiredTigerSession.getCachedCursor 7 cfg'
          (WiredTigerSession.releaseCursor false 5 7 42 "cfg"
            (WiredTigerSession.mkSession 0 0))).1 ≠ some 42) :=
  ⟨⟨by decide, by simp [WiredTigerSession.mkSession]⟩,
    WiredTigerSession.releaseCursor_cache_fidelity 5 7 42 "cfg"
      (WiredTigerSession.mkSession 0 0) (by decide)
      (by simp [WiredTigerSession.mkSession])⟩

namespace WiredTigerSession

lemma length_le_of_ascending_window :
    ∀ (l : List WiredTigerCachedCursor) (a b : Nat),
      l.Pairwise (fun x y => x.gen < y.gen) →
      (∀ c ∈ l, a ≤ c.gen ∧ c.gen < b) → l.length ≤ b - a := by
  intro l
  induction l with
  | nil => intro a b _ _; simp
  | cons c t ih =>
    intro a b hp hw
    rcases List.pairwise_cons.mp hp with ⟨hhead, ht⟩
    have h1 : ∀ x ∈ t, c.gen + 1 ≤ x.gen ∧ x.gen < b := fun x hx =>
      ⟨hhead x hx, (hw x (List.mem_cons_of_mem c hx)).2⟩
    have h2 := ih (c.gen + 1) b ht h1
    have h3 := hw c (List.mem_cons_self c t)
    simp only [List.length_cons]
    omega

lemma releaseCursor_inv_step (tunable : Int) (id hdl : Nat) (cfg : String)
    (s : WiredTigerSession) (hinv : CursorCacheInv s) :
    CursorCacheInv (releaseCursor false tunable id hdl cfg s)
    ∧ ∀ c ∈ (releaseCursor false tunable id hdl cfg s).cursors,
        (releaseCursor false tunable id hdl cfg s).cursorGen - c.gen
          ≤ tunable.natAbs := by
  obtain ⟨hpair, hlt⟩ := hinv
  set e : WiredTigerCachedCursor := ⟨id, s.cursorGen, hdl, cfg⟩ with he
  have hpair2 : (s.cursors.reverse ++ [e]).Pairwise (fun a b => a.gen < b.gen) := by
    rw [List.pairwise_append]
    refine ⟨hpair, List.pairwise_singleton _ _, ?_⟩
    intro x hx y hy
    rw [List.mem_reverse] at hx
    rw [List.mem_singleton] at hy
    subst hy
    exact hlt x hx
  have hsub : List.Sublist (evictRev (s.cursorGen + 1) tunable.natAbs
      (s.cursors.reverse ++ [e])).1 (s.cursors.reverse ++ [e]) :=
    (evictRev_suffix _ _ _).sublist
  have hrc : releaseCursor false tunable id hdl cfg s
      = { s with
          cursorsOut := s.cursorsOut - 1
          resetTrace := hdl :: s.resetTrace
          cursors := (evictRev (s.cursorGen + 1) tunable.natAbs
            (s.cursors.reverse ++ [e])).1.reverse
          cursorGen := s.cursorGen + 1
          closedCursors := s.closedCursors ++ (evictRev (s.cursorGen + 1)
            tunable.natAbs (s.cursors.reverse ++ [e])).2 } := by
    simp [releaseCursor, he]
  have hmem : ∀ c ∈ (evictRev (s.cursorGen + 1) tunable.natAbs
      (s.cursors.reverse ++ [e])).1, c.gen < s.cursorGen + 1 := by
    intro c hc
    rcases List.mem_append.mp (hsub.subset hc) with hc1 | hc1
    · rw [List.mem_reverse] at hc1
      exact Nat.lt_succ_of_lt (hlt c hc1)
    · rw [List.mem_singleton] at hc1
      subst hc1
      exact Nat.lt_succ_self _
  have hwindow : ∀ c ∈ (evictRev (s.cursorGen + 1) tunable.natAbs
      (s.cursors.reverse ++ [e])).1, s.cursorGen + 1 - c.gen ≤ tunable.natAbs := by
    cases hev : (evictRev (s.cursorGen + 1) tunable.natAbs
        (s.cursors.reverse ++ [e])).1 with
    | nil => simp
    | cons c0 rest =>
      intro c hc
      have hb := evictRev_head_bound (s.cursorGen + 1) tunable.natAbs _ _ _ hev
      have hp0 : (c0 :: rest).Pairwise (fun a b => a.gen < b.gen) := by
        rw [← hev] at *
        exact hpair2.sublist hsub
      rcases List.mem_cons.mp hc with rfl | hc1
      · exact hb
      · have := (List.pairwise_cons.mp hp0).1 c hc1
        omega
  refine ⟨⟨?_, ?_⟩, ?_⟩
  · rw [hrc]
    simp only [List.reverse_reverse]
    exact hpair2.sublist hsub
  · intro c hc
    rw [hrc] at hc ⊢
    simp only [List.mem_reverse] at hc
    exact hmem c hc
  · intro c hc
    rw [hrc] at hc ⊢
    simp only [List.mem_reverse] at hc
    exact hwindow c hc

lemma releaseSeq_inv (tunable : Int) :
    ∀ (ops : List (Nat × Nat × String)) (s : WiredTigerSession),
      CursorCacheInv s →
      (∀ c ∈ s.cursors, s.cursorGen - c.gen ≤ tunable.natAbs) →
      CursorCacheInv (releaseSeq tunable ops s)
      ∧ ∀ c ∈ (releaseSeq tunable ops s).cursors,
          (releaseSeq tunable ops s).cursorGen - c.gen ≤ tunable.natAbs := by
  intro ops
  induction ops with
  | nil => intro s h1 h2; exact ⟨h1, h2⟩
  | cons op t ih =>
    intro s h1 _
    obtain ⟨h1', h2'⟩ := releaseCursor_inv_step tunable op.1 op.2.1 op.2.2 s h1
    exact ih _ h1' h2'

/-- **C2 (bounded cache size).**  For any sequence of `releaseCursor` calls
on one session with a fixed positive size limit `L` (not shutting down), the
number of cached cursors never exceeds `L`, and the eviction loop keeps
exactly the young generations: every surviving entry satisfies
`_cursorGen - _gen ≤ L` (the oldest-by-generation entries are removed first,
from the back).  Scenario A: with `L = 2`, releasing cursors for ids
(1,"cfgA"), (2,"cfgA"), (3,"cfgA") leaves exactly ids {3, 2} cached, closes
the cursor of id 1, and `getCachedCursor(1, "cfgA")` then returns empty. -/
theorem releaseSeq_bounded (L : Nat) (hL : 1 ≤ L)
    (ops : List (Nat × Nat × String)) (sid ep : Nat) :
    (releaseSeq (L : Int) ops (mkSession sid ep)).cursors.length ≤ L
    ∧ (∀ c ∈ (releaseSeq (L : Int) ops (mkSession sid ep)).cursors,
        (releaseSeq (L : Int) ops (mkSession sid ep)).cursorGen - c.gen ≤ L)
    ∧ (releaseSeq 2 [(1, 101, "cfgA"), (2, 102, "cfgA"), (3, 103, "cfgA")]
        (mkSession 0 0)).cursors.map (fun c => c.id) = [3, 2]
    ∧ (releaseSeq 2 [(1, 101, "cfgA"), (2, 102, "cfgA"), (3, 103, "cfgA")]
        (mkSession 0 0)).closedCursors = [101]
    ∧ (getCachedCursor 1 "cfgA"
        (releaseSeq 2 [(1, 101, "cfgA"), (2, 102, "cfgA"), (3, 103, "cfgA")]
          (mkSession 0 0))).1 = none := by
  have hinv0 : CursorCacheInv (mkSession sid ep) := by
    constructor <;> simp [mkSession, CursorCacheInv]
  have hw0 : ∀ c ∈ (mkSession sid ep).cursors,
      (mkSession sid ep).cursorGen - c.gen ≤ (L : Int).natAbs := by
    simp [mkSession]
  obtain ⟨⟨hpair, hlt⟩, hwin⟩ := releaseSeq_inv (L : Int) ops (mkSession sid ep) hinv0 hw0
  have habs : ((L : Int)).natAbs = L := Int.natAbs_ofNat L
  rw [habs] at hwin
  refine ⟨?_, hwin, by decide, by decide, by decide⟩
  have hlen : (releaseSeq (L : Int) ops (mkSession sid ep)).cursors.reverse.length
      ≤ (releaseSeq (L : Int) ops (mkSession sid ep)).cursorGen
        - ((releaseSeq (L : Int) ops (mkSession sid ep)).cursorGen - L) := by
    apply length_le_of_ascending_window _ _ _ hpair
    intro c hc
    rw [List.mem_reverse] at hc
    have h1 := hlt c hc
    have h2 := hwin c hc
    omega
  rw [List.length_reverse] at hlen
  omega

end WiredTigerSession

/-- Witness for `releaseSeq_bounded` at `L = 2` with the Scenario A release
sequence. -/
theorem releaseSeq_bounded_witness :
    (1 ≤ 2)
    ∧ ((releaseSeq ((2 : Nat) : Int)
          [(1, 101, "cfgA"), (2, 102, "cfgA"), (3, 103, "cfgA")]
          (WiredTigerSession.mkSession 0 0)).cursors.length ≤ 2
    ∧ (∀ c ∈ (releaseSeq ((2 : Nat) : Int)
          [(1, 101, "cfgA"), (2, 102, "cfgA"), (3, 103, "cfgA")]
          (WiredTigerSession.mkSession 0 0)).cursors,
        (releaseSeq ((2 : Nat) : Int)
          [(1, 101, "cfgA"), (2, 102, "cfgA"), (3, 103, "cfgA")]
          (WiredTigerSession.mkSession 0 0)).cursorGen - c.gen ≤ 2)
    ∧ (releaseSeq 2
        [(1, 101, "cfgA"), (2, 102, "cfgA"), (3, 103, "cfgA")]
        (WiredTigerSession.mkSession 0 0)).cursors.map (fun c => c.id) = [3, 2]
    ∧ (releaseSeq 2
        [(1, 101, "cfgA"), (2, 102, "cfgA"), (3, 103, "cfgA")]
        (WiredTigerSession.mkSession 0 0)).closedCursors = [101]
    ∧ (WiredTigerSession.getCachedCursor 1 "cfgA"
        (releaseSeq 2
          [(1, 101, "cfgA"), (2, 102, "cfgA"), (3, 103, "cfgA")]
          (WiredTigerSession.mkSession 0 0))).1 = none) :=
  ⟨by decide,
    WiredTigerSession.releaseSeq_bounded 2 (by decide)
      [(1, 101, "cfgA"), (2, 102, "cfgA"), (3, 103, "cfgA")] 0 0⟩

/-- **C4 (open-cursor error taxonomy).**  For every uri and config,
`getNewCursor`'s underlying `_openCursor`: status 0 returns the new handle
and increments `_cursorsOut`; `ENOENT` raises the typed, recoverable
`CursorNotFound` error (never a fatal abort); `EBUSY` raises a retryable,
non-fatal error; any other nonzero status terminates the process fatally
with the uri, config and underlying error in the log. -/
theorem getNewCursor_error_taxonomy (ret : Int) (cursor : Nat)
    (uri config : String) (s : WiredTigerSession) :
    (ret = 0 → s.getNewCursor ret cursor uri config
        = (.ok cursor, { s with cursorsOut := s.cursorsOut + 1 }))
    ∧ (ret = ENOENT → s.getNewCursor ret cursor uri config
        = (.cursorNotFound uri config, s))
    ∧ (ret = EBUSY → s.getNewCursor ret cursor uri config
        = (.busy uri config, s))
    ∧ (ret ≠ 0 → ret ≠ ENOENT → ret ≠ EBUSY →
        s.getNewCursor ret cursor uri config = (.fatal uri config ret, s)) := by
  refine ⟨?_, ?_, ?_, ?_⟩
  · intro h
    subst h
    simp [WiredTigerSession.getNewCursor, openCursor]
  · intro h
    subst h
    simp [WiredTigerSession.getNewCursor, openCursor, ENOENT, EBUSY]
  · intro h
    subst h
    simp [WiredTigerSession.getNewCursor, openCursor, EBUSY]
  · intro h0 h2 h16
    simp [WiredTigerSession.getNewCursor, openCursor, h0, h2, h16]

/-- Witness for `getNewCursor_error_taxonomy`: a missing table
(`ret = ENOENT`) yields `CursorNotFound`, and an unexpected status
(`WT_ERROR = -31802`) is fatal; neither touches the session. -/
theorem getNewCursor_error_taxonomy_witness :
    ((2 : Int) = ENOENT
      ∧ (WiredTigerSession.mkSession 0 0).getNewCursor 2 0 "table:missing" "cfg"
        = (.cursorNotFound "table:missing" "cfg", WiredTigerSession.mkSession 0 0))
    ∧ ((-31802 : Int) ≠ 0
      ∧ (WiredTigerSession.mkSession 0 0).getNewCursor (-31802) 0 "table:bad" "cfg"
        = (.fatal "table:bad" "cfg" (-31802), WiredTigerSession.mkSession 0 0)) :=
  ⟨⟨by decide,
      (getNewCursor_error_taxonomy 2 0 "table:missing" "cfg"
        (WiredTigerSession.mkSession 0 0)).2.1 rfl⟩,
    ⟨by decide,
      (getNewCursor_error_taxonomy (-31802) 0 "table:bad" "cfg"
        (WiredTigerSession.mkSession 0 0)).2.2.2
        (by decide) (by decide) (by decide)⟩⟩

/-- **C7 (undo round-trip).**  `reconfigure(new, undo)` with `new ≠ undo`
records `undo` into the undo set; with `new = undo` it removes `undo` from
the set instead; a reconfigure followed by its own self-canceling
reconfigure leaves the undo set exactly as it was (when the undo string was
not already recorded); and `resetSessionConfiguration()` applies to the WT
session exactly the strings currently in the undo set and leaves the set
empty. -/
theorem reconfigure_undo_roundtrip (s : WiredTigerSession)
    (newConfig undoConfig x u : String) :
    (newConfig ≠ undoConfig →
        undoConfig ∈ (s.reconfigure newConfig undoConfig).undoConfigStrings
        ∧ ∀ v, v ∈ (s.reconfigure newConfig undoConfig).undoConfigStrings
            ↔ (v = undoConfig ∨ v ∈ s.undoConfigStrings))
    ∧ (newConfig = undoConfig →
        ∀ v, v ∈ (s.reconfigure newConfig undoConfig).undoConfigStrings
          ↔ (v ∈ s.undoConfigStrings ∧ v ≠ undoConfig))
    ∧ (u ∉ s.undoConfigStrings → x ≠ u →
        ((s.reconfigure x u).reconfigure u u).undoConfigStrings
          = s.undoConfigStrings)
    ∧ (s.resetSessionConfiguration.appliedConfigs
          = s.appliedConfigs ++ s.undoConfigStrings
      ∧ s.resetSessionConfiguration.undoConfigStrings = []) := by
  refine ⟨?_, ?_, ?_, rfl, rfl⟩
  · intro hne
    by_cases hmem : undoConfig ∈ s.undoConfigStrings
    · constructor
      · simp [WiredTigerSession.reconfigure, hne, hmem]
      · intro v
        simp only [WiredTigerSession.reconfigure, if_neg hne, if_pos hmem]
        constructor
        · exact fun h => Or.inr h
        · rintro (rfl | h)
          · exact hmem
          · exact h
    · constructor
      · simp [WiredTigerSession.reconfigure, hne, hmem]
      · intro v
        simp [WiredTigerSession.reconfigure, hne, hmem]
  · intro heq v
    simp [WiredTigerSession.reconfigure, heq, List.mem_filter]
  · intro hmem hne
    have h1 : ((s.reconfigure x u).reconfigure u u).undoConfigStrings
        = (u :: s.undoConfigStrings).filter (fun v => v ≠ u) := by
      simp [WiredTigerSession.reconfigure, hne, hmem]
    rw [h1]
    rw [List.filter_cons]
    simp only [ne_eq, not_true_eq_false, decide_False, if_false]
    apply List.filter_eq_self.mpr
    intro a ha
    simp only [ne_eq, decide_eq_true_eq]
    intro hau
    subst hau
    exact hmem ha

/-- Witness for `reconfigure_undo_roundtrip`: reconfigure with
`new = "cache_cursors=false"`, `undo = "cache_cursors=true"` on a fresh
session, then the self-canceling pair, then reset. -/
theorem reconfigure_undo_roundtrip_witness :
    (("cache_cursors=false" ≠ "cache_cursors=true")
      ∧ "cache_cursors=true" ∈ ((WiredTigerSession.mkSession 0 0).reconfigure
          "cache_cursors=false" "cache_cursors=true").undoConfigStrings)
    ∧ (("cache_cursors=true" ∉ (WiredTigerSession.mkSession 0 0).undoConfigStrings)
      ∧ (((WiredTigerSession.mkSession 0 0).reconfigure
            "cache_cursors=false" "cache_cursors=true").reconfigure
            "cache_cursors=true" "cache_cursors=true").undoConfigStrings
          = (WiredTigerSession.mkSession 0 0).undoConfigStrings) :=
  ⟨⟨by decide,
      ((reconfigure_undo_roundtrip (WiredTigerSession.mkSession 0 0)
        "cache_cursors=false" "cache_cursors=true" "x" "u").1
        (by decide)).1⟩,
    ⟨by simp [WiredTigerSession.mkSession],
      (reconfigure_undo_roundtrip (WiredTigerSession.mkSession 0 0)
        "cache_cursors=false" "cache_cursors=true"
        "cache_cursors=false" "cache_cursors=true").2.2.1
        (by simp [WiredTigerSession.mkSession]) (by decide)⟩⟩

/-- **C10 (shutdown frame effect).**  When the owning cache is shutting
down, `releaseCursor` returns without modifying any session state —
`_cursorsOut` is not decremented, the cursor cache is unchanged, the handle
is neither reset (no `reset` trace entry), cached, nor closed (no close
trace entry): the resource is abandoned.  Correspondingly, the release-path
assertion `invariant(cursorsOut() == 0 || isShuttingDown())` tolerates a
nonzero `cursorsOut` during shutdown: `releaseSession` succeeds (discarding
the session) for any `cursorsOut`. -/
theorem releaseCursor_shutdown_abandons (tunable : Int) (id cursor : Nat)
    (config : String) (s : WiredTigerSession) (cursorUri : Nat → String)
    (now : Int) (c : WiredTigerSessionCache)
    (hsd : c.isShuttingDown = true) :
    WiredTigerSession.releaseCursor true tunable id cursor config s = s
    ∧ c.releaseSession cursorUri now s
        = .ok { c with destroyed := c.destroyed ++ [s.sid] } := by
  constructor
  · rfl
  · simp [WiredTigerSessionCache.releaseSession, hsd]

/-- Witness for `releaseCursor_shutdown_abandons` on a cache whose sticky
bit is set and a session with two cursors still out. -/
theorem releaseCursor_shutdown_abandons_witness :
    exampleShutdownCache.isShuttingDown = true
    ∧ ({ WiredTigerSession.mkSession 3 0 with cursorsOut := 2 }.cursorsOut ≠ 0
    ∧ WiredTigerSession.releaseCursor true 1 4 44 "cfg"
        { WiredTigerSession.mkSession 3 0 with cursorsOut := 2 }
        = { WiredTigerSession.mkSession 3 0 with cursorsOut := 2 }
    ∧ exampleShutdownCache.releaseSession (fun _ => "table:x") 9
        { WiredTigerSession.mkSession 3 0 with cursorsOut := 2 }
        = .ok { exampleShutdownCache with
                destroyed := exampleShutdownCache.destroyed ++ [3] }) :=
  ⟨by decide,
    by decide,
    (releaseCursor_shutdown_abandons 1 4 44 "cfg"
      { WiredTigerSession.mkSession 3 0 with cursorsOut := 2 }
      (fun _ => "table:x") 9 exampleShutdownCache (by decide)).1,
    (releaseCursor_shutdown_abandons 1 4 44 "cfg"
      { WiredTigerSession.mkSession 3 0 with cursorsOut := 2 }
      (fun _ => "table:x") 9 exampleShutdownCache (by decide)).2⟩

lemma mem_of_getLast?_eq {α : Type} {l : List α} {a : α}
    (h : l.getLast? = some a) : a ∈ l := by
  have hx : a ∈ l.getLast? := by rw [h]; rfl
  obtain ⟨hne, rfl⟩ := List.mem_getLast?_eq_getLast hx
  exact List.getLast_mem hne

namespace WiredTigerSession

@[simp] lemma closeAllCursors_epoch (f : Nat → String) (uri : String)
    (s : WiredTigerSession) : (s.closeAllCursors f uri).epoch = s.epoch := rfl

@[simp] lemma closeAllCursors_sid (f : Nat → String) (uri : String)
    (s : WiredTigerSession) : (s.closeAllCursors f uri).sid = s.sid := rfl

@[simp] lemma resetSessionConfiguration_epoch (s : WiredTigerSession) :
    s.resetSessionConfiguration.epoch = s.epoch := rfl

@[simp] lemma resetSessionConfiguration_sid (s : WiredTigerSession) :
    s.resetSessionConfiguration.sid = s.sid := rfl

@[simp] lemma mkSession_sid (sid epoch : Nat) :
    (mkSession sid epoch).sid = sid := rfl

@[simp] lemma mkSession_epoch (sid epoch : Nat) :
    (mkSession sid epoch).epoch = epoch := rfl

end WiredTigerSession

namespace WiredTigerSessionCache

lemma releaseSession_not_shutdown (cursorUri : Nat → String) (now : Int)
    (s : WiredTigerSession) (c : WiredTigerSessionCache)
    (hbit : c.isShuttingDown = false) (hcur : s.cursorsOut = 0) :
    c.releaseSession cursorUri now s
      = if s.epoch = c.epoch then
          .ok { c with sessions := c.sessions ++
            [{ (if c.cursorCacheSize < 0 then s.closeAllCursors cursorUri ""
                else s).resetSessionConfiguration
                with idleExpireTime := some now }] }
        else if s.epoch < c.epoch then
          .ok { c with destroyed := c.destroyed ++ [s.sid] }
        else .error "invariant failure: session epoch ahead of cache epoch" := by
  rw [releaseSession, if_neg, if_neg]
  · by_cases hneg : c.cursorCacheSize < 0 <;>
      simp [hneg]
  · simp [hbit]
  · intro hcon
    exact hcon (Or.inl hcur)

end WiredTigerSessionCache

/-- **C3 (epoch discard).**  A session checked out before `closeAll()` and
released after it is never placed back in the pool: its epoch is strictly
below the cache's bumped epoch, so `releaseSession` destroys it and leaves
the pool exactly as it was.  No subsequent `getSession()` returns that
session: a cache whose pool does not hold the session's identity hands out
either a pooled session with a different identity or a brand-new one with a
fresh identity.  And on release, a session is re-pooled only if its creation
epoch equals the cache's current epoch at the under-lock recheck. -/
theorem closeAll_epoch_discard (cursorUri : Nat → String) (now : Int)
    (c : WiredTigerSessionCache) (s : WiredTigerSession)
    (hbit : c.isShuttingDown = false) (hcur : s.cursorsOut = 0)
    (hep : s.epoch ≤ c.epoch) :
    s.epoch < c.closeAll.epoch
    ∧ c.closeAll.releaseSession cursorUri now s
        = .ok { c.closeAll with destroyed := c.closeAll.destroyed ++ [s.sid] }
    ∧ (∀ c' : WiredTigerSessionCache,
        s.sid ∉ c'.sessions.map WiredTigerSession.sid → s.sid < c'.nextSid →
        ∀ (s' : WiredTigerSession) (c'' : WiredTigerSessionCache),
          c'.getSession = .ok (s', c'') → s'.sid ≠ s.sid)
    ∧ (∀ (c0 : WiredTigerSessionCache) (t : WiredTigerSession)
        (c0' : WiredTigerSessionCache),
        c0.releaseSession cursorUri now t = .ok c0' →
        c0'.sessions ≠ c0.sessions → t.epoch = c0.epoch) := by
  have hepoch : c.closeAll.epoch = c.epoch + 1 := rfl
  have hbit2 : c.closeAll.isShuttingDown = false := hbit
  refine ⟨by omega, ?_, ?_, ?_⟩
  · rw [WiredTigerSessionCache.releaseSession_not_shutdown cursorUri now s
      c.closeAll hbit2 hcur]
    rw [if_neg (by omega), if_pos (by omega)]
  · intro c' hnotin hlt s' c'' hget
    rw [WiredTigerSessionCache.getSession] at hget
    by_cases hb : c'.shuttingDownWord &&& kShuttingDownMask != 0
    · rw [if_pos hb] at hget
      simp at hget
    · rw [if_neg hb] at hget
      cases hlast : c'.sessions.getLast? with
      | some t =>
        rw [hlast] at hget
        simp only [Except.ok.injEq, Prod.mk.injEq] at hget
        have hs' : s'.sid = t.sid := by
          rw [← hget.1]
        intro heq
        exact hnotin (by
          rw [← heq, hs']
          exact List.mem_map_of_mem _ (mem_of_getLast?_eq hlast))
      | none =>
        rw [hlast] at hget
        simp only [Except.ok.injEq, Prod.mk.injEq] at hget
        have hs' : s'.sid = c'.nextSid := by
          rw [← hget.1]
          rfl
        intro heq
        omega
  · intro c0 t c0' hrel hne
    by_cases hb : c0.isShuttingDown = true
    · rw [WiredTigerSessionCache.releaseSession] at hrel
      rw [if_neg (fun hcon => hcon (Or.inr hb)), if_pos hb] at hrel
      simp only [Except.ok.injEq] at hrel
      rw [← hrel] at hne
      simp at hne
    · have hb' : c0.isShuttingDown = false := by
        simpa using hb
      by_cases ha : t.cursorsOut = 0
      · rw [WiredTigerSessionCache.releaseSession_not_shutdown cursorUri now t
          c0 hb' ha] at hrel
        by_cases hc : t.epoch = c0.epoch
        · exact hc
        · rw [if_neg hc] at hrel
          by_cases hd : t.epoch < c0.epoch
          · rw [if_pos hd] at hrel
            simp only [Except.ok.injEq] at hrel
            rw [← hrel] at hne
            simp at hne
          · rw [if_neg hd] at hrel
            simp at hrel
      · rw [WiredTigerSessionCache.releaseSession] at hrel
        rw [if_pos] at hrel
        · simp at hrel
        · intro hcon
          rcases hcon with h1 | h2
          · exact ha h1
          · exact hb h2

/-- Witness for `closeAll_epoch_discard`: a session of epoch 0 checked out of
a quiescent cache, released after `closeAll` bumps the epoch to 1. -/
theorem closeAll_epoch_discard_witness :
    ((exampleCache 1).isShuttingDown = false
      ∧ (WiredTigerSession.mkSession 0 0).cursorsOut = 0
      ∧ (WiredTigerSession.mkSession 0 0).epoch ≤ (exampleCache 1).epoch)
    ∧ ((WiredTigerSession.mkSession 0 0).epoch < (exampleCache 1).closeAll.epoch
    ∧ (exampleCache 1).closeAll.releaseSession (fun _ => "table:x") 7
        (WiredTigerSession.mkSession 0 0)
        = .ok { (exampleCache 1).closeAll with
                destroyed := (exampleCache 1).closeAll.destroyed ++ [0] }
    ∧ (∀ c' : WiredTigerSessionCache,
        (WiredTigerSession.mkSession 0 0).sid
            ∉ c'.sessions.map WiredTigerSession.sid →
        (WiredTigerSession.mkSession 0 0).sid < c'.nextSid →
        ∀ (s' : WiredTigerSession) (c'' : WiredTigerSessionCache),
          c'.getSession = .ok (s', c'') →
            s'.sid ≠ (WiredTigerSession.mkSession 0 0).sid)
    ∧ (∀ (c0 : WiredTigerSessionCache) (t : WiredTigerSession)
        (c0' : WiredTigerSessionCache),
        c0.releaseSession (fun _ => "table:x") 7 t = .ok c0' →
        c0'.sessions ≠ c0.sessions → t.epoch = c0.epoch)) :=
  ⟨⟨by decide, by decide, by decide⟩,
    by
      have h := closeAll_epoch_discard (fun _ => "table:x") 7 (exampleCache 1)
        (WiredTigerSession.mkSession 0 0) (by decide) (by decide) (by decide)
      exact ⟨h.1, h.2.1, h.2.2.1, h.2.2.2⟩⟩

lemma orMask_and_ne_zero (w : Nat) :
    (w ||| kShuttingDownMask) &&& kShuttingDownMask ≠ 0 := by
  intro h0
  have ht : ((w ||| kShuttingDownMask) &&& kShuttingDownMask).testBit 31
      = false := by
    rw [h0]
    simp
  rw [Nat.testBit_and, Nat.testBit_lor] at ht
  have hm : Nat.testBit kShuttingDownMask 31 = true := by decide
  simp [hm] at ht

namespace WiredTigerSessionCache

lemma isShuttingDown_of_word_eq {c1 c2 : WiredTigerSessionCache}
    (h : c1.shuttingDownWord = c2.shuttingDownWord) :
    c1.isShuttingDown = c2.isShuttingDown := by
  unfold isShuttingDown
  rw [h]

lemma releaseSession_word (cursorUri : Nat → String) (now : Int)
    (s : WiredTigerSession) (c : WiredTigerSessionCache) :
    ∀ c', c.releaseSession cursorUri now s = .ok c' →
      c'.shuttingDownWord = c.shuttingDownWord := by
  intro c' h
  simp only [releaseSession] at h
  split at h
  · simp at h
  · by_cases hb : c.isShuttingDown = true
    · rw [if_pos hb] at h
      simp only [Except.ok.injEq] at h
      rw [← h]
    · rw [if_neg hb] at h
      by_cases hc : (if c.cursorCacheSize < 0 then
          WiredTigerSession.closeAllCursors cursorUri "" s
          else s).resetSessionConfiguration.epoch = c.epoch
      · rw [if_pos hc] at h
        simp only [Except.ok.injEq] at h
        rw [← h]
      · rw [if_neg hc] at h
        by_cases hd : (if c.cursorCacheSize < 0 then
            WiredTigerSession.closeAllCursors cursorUri "" s
            else s).resetSessionConfiguration.epoch < c.epoch
        · rw [if_pos hd] at h
          simp only [Except.ok.injEq] at h
          rw [← h]
        · rw [if_neg hd] at h
          simp at h

lemma closeExpiredIdleSessions_word (now t : Int) (c : WiredTigerSessionCache) :
    ∀ c', c.closeExpiredIdleSessions now t = .ok c' →
      c'.shuttingDownWord = c.shuttingDownWord := by
  intro c' h
  simp only [closeExpiredIdleSessions] at h
  split at h
  · simp only [Except.ok.injEq] at h
    rw [← h]
  · split at h
    · simp at h
    · simp only [Except.ok.injEq] at h
      rw [← h]

lemma getSession_word (c : WiredTigerSessionCache) :
    ∀ (s' : WiredTigerSession) (c'' : WiredTigerSessionCache),
      c.getSession = .ok (s', c'') → c''.shuttingDownWord = c.shuttingDownWord := by
  intro s' c'' h
  simp only [getSession] at h
  split at h
  · simp at h
  · split at h
    · simp only [Except.ok.injEq, Prod.mk.injEq] at h
      rw [← h.2]
    · simp only [Except.ok.injEq, Prod.mk.injEq] at h
      rw [← h.2]

lemma shuttingDown_word (c : WiredTigerSessionCache) :
    c.shuttingDown.shuttingDownWord
      = c.shuttingDownWord ||| kShuttingDownMask := by
  simp only [shuttingDown]
  split <;> rfl

end WiredTigerSessionCache

/-- **C5 (shutdown terminality).**  From a quiescent cache (packed word 0:
bit clear, no blockers), `shuttingDown()` sets the sticky bit and performs
`closeAll` (bumping the epoch); no cache operation other than `restart()`
ever clears the sticky bit; while it is set, every `getSession()` call fails
its assertion; and after `restart()`, `getSession()` succeeds and the
session it creates carries an epoch strictly newer than the epoch of any
session created before the shutdown. -/
theorem shuttingDown_terminality (cursorUri : Nat → String)
    (c : WiredTigerSessionCache) (hword : c.shuttingDownWord = 0) :
    (c.shuttingDown.isShuttingDown = true
      ∧ c.shuttingDown.epoch = c.epoch + 1)
    ∧ (∀ (op : CacheOp) (c' : WiredTigerSessionCache), op ≠ CacheOp.restartOp →
        c'.isShuttingDown = true →
        (applyCacheOp cursorUri op c').isShuttingDown = true)
    ∧ (∀ c' : WiredTigerSessionCache, c'.isShuttingDown = true →
        ∃ e, c'.getSession = .error e)
    ∧ (∃ (s' : WiredTigerSession) (c'' : WiredTigerSessionCache),
        c.shuttingDown.restart.getSession = .ok (s', c'')
        ∧ s'.epoch = c.epoch + 1
        ∧ ∀ e : Nat, e ≤ c.epoch → e < s'.epoch) := by
  have hgetfail : ∀ c' : WiredTigerSessionCache, c'.isShuttingDown = true →
      ∃ e, c'.getSession = .error e := by
    intro c' hsd
    refine ⟨"invariant failure: getSession during shutdown", ?_⟩
    rw [WiredTigerSessionCache.getSession, if_pos]
    exact hsd
  have hsd1 : c.shuttingDown = WiredTigerSessionCache.closeAll
      { c with shuttingDownWord := c.shuttingDownWord ||| kShuttingDownMask } := by
    simp only [WiredTigerSessionCache.shuttingDown]
    rw [if_neg]
    rw [hword]
    decide
  refine ⟨⟨?_, ?_⟩, ?_, hgetfail, ?_⟩
  · rw [WiredTigerSessionCache.isShuttingDown]
    rw [WiredTigerSessionCache.shuttingDown_word]
    simp [orMask_and_ne_zero c.shuttingDownWord]
  · rw [hsd1]
    rfl
  · intro op c' hop hsd
    cases op with
    | getSessionOp =>
      simp only [applyCacheOp]
      cases hg : c'.getSession with
      | error e => exact hsd
      | ok p =>
        obtain ⟨e, he⟩ := hgetfail c' hsd
        rw [hg] at he
        simp at he
    | releaseSessionOp now s =>
      simp only [applyCacheOp]
      cases hg : c'.releaseSession cursorUri now s with
      | error e => exact hsd
      | ok c2 =>
        rw [WiredTigerSessionCache.isShuttingDown_of_word_eq
          (WiredTigerSessionCache.releaseSession_word cursorUri now s c' c2 hg)]
        exact hsd
    | closeAllOp =>
      rw [show (applyCacheOp cursorUri CacheOp.closeAllOp c')
          = c'.closeAll from rfl]
      rw [WiredTigerSessionCache.isShuttingDown_of_word_eq
        (show c'.closeAll.shuttingDownWord = c'.shuttingDownWord from rfl)]
      exact hsd
    | closeExpiredIdleSessionsOp now t =>
      simp only [applyCacheOp]
      cases hg : c'.closeExpiredIdleSessions now t with
      | error e => exact hsd
      | ok c2 =>
        rw [WiredTigerSessionCache.isShuttingDown_of_word_eq
          (WiredTigerSessionCache.closeExpiredIdleSessions_word now t c' c2 hg)]
        exact hsd
    | closeAllCursorsOp uri =>
      rw [WiredTigerSessionCache.isShuttingDown_of_word_eq
        (show (applyCacheOp cursorUri (CacheOp.closeAllCursorsOp uri)
          c').shuttingDownWord = c'.shuttingDownWord from rfl)]
      exact hsd
    | shuttingDownOp =>
      rw [show applyCacheOp cursorUri CacheOp.shuttingDownOp c'
          = c'.shuttingDown from rfl]
      rw [WiredTigerSessionCache.isShuttingDown,
        WiredTigerSessionCache.shuttingDown_word]
      simp [orMask_and_ne_zero c'.shuttingDownWord]
    | restartOp => exact absurd rfl hop
  · have hrs : c.shuttingDown.restart
        = { sessions := [], epoch := c.epoch + 1, shuttingDownWord := 0,
            cursorCacheSize := c.cursorCacheSize, nextSid := c.nextSid,
            destroyed := c.destroyed ++ c.sessions.map (fun s => s.sid) } := by
      rw [hsd1]
      simp only [WiredTigerSessionCache.restart, WiredTigerSessionCache.closeAll]
      rw [hword]
      rw [show (0 ||| kShuttingDownMask) &&& (kShuttingDownMask - 1) = 0 from rfl]
    refine ⟨WiredTigerSession.mkSession c.nextSid (c.epoch + 1),
      { sessions := [], epoch := c.epoch + 1, shuttingDownWord := 0,
        cursorCacheSize := c.cursorCacheSize, nextSid := c.nextSid + 1,
        destroyed := c.destroyed ++ c.sessions.map (fun s => s.sid) },
      ?_, rfl, ?_⟩
    · rw [hrs]
      unfold WiredTigerSessionCache.getSession
      simp
    · intro e he
      simp only [WiredTigerSession.mkSession_epoch]
      omega

/-- Witness for `shuttingDown_terminality` on a quiescent cache. -/
theorem shuttingDown_terminality_witness :
    (exampleCache 1).shuttingDownWord = 0
    ∧ (((exampleCache 1).shuttingDown.isShuttingDown = true
      ∧ (exampleCache 1).shuttingDown.epoch = (exampleCache 1).epoch + 1)
    ∧ (∀ (op : CacheOp) (c' : WiredTigerSessionCache), op ≠ CacheOp.restartOp →
        c'.isShuttingDown = true →
        (applyCacheOp (fun _ => "table:x") op c').isShuttingDown = true)
    ∧ (∀ c' : WiredTigerSessionCache, c'.isShuttingDown = true →
        ∃ e, c'.getSession = .error e)
    ∧ (∃ (s' : WiredTigerSession) (c'' : WiredTigerSessionCache),
        (exampleCache 1).shuttingDown.restart.getSession = .ok (s', c'')
        ∧ s'.epoch = (exampleCache 1).epoch + 1
        ∧ ∀ e : Nat, e ≤ (exampleCache 1).epoch → e < s'.epoch)) :=
  ⟨by decide,
    shuttingDown_terminality (fun _ => "table:x") (exampleCache 1) (by decide)⟩

/-- Counterexample to C6 as stated: `idleBoundaryCache` holds one pooled
session that went idle at t = 1000 ms; at `now = 2000` with timeout
`T = 1000` the session has been idle for exactly `T >= T`, yet
`closeExpiredIdleSessions` retains it (the code removes only sessions whose
idle-expire time is strictly before `now - T`). -/
theorem closeExpiredIdleSessions_boundary_counterexample :
    (∃ s, idleBoundaryCache.sessions = [s] ∧ s.idleExpireTime = some 1000)
    ∧ (2000 : Int) - 1000 ≥ 1000
    ∧ idleBoundaryCache.closeExpiredIdleSessions 2000 1000
        = .ok idleBoundaryCache := by
  exact ⟨⟨_, rfl, rfl⟩, by decide, rfl⟩

/-- **C6 amended (idle expiry).**  `closeExpiredIdleSessions(T)` is a no-op
for `T ≤ 0`.  For positive `T` it asserts that every pooled session carries
a real (non-sentinel) idle-expire timestamp, and removes from the pool
exactly the sessions whose idle-expire time is strictly before the cutoff
`now - T`: a session idle for a duration strictly greater than `T` is
removed, and a session idle for a duration `≤ T` (including exactly `T`) is
retained. -/
theorem closeExpiredIdleSessions_spec (now t : Int)
    (c : WiredTigerSessionCache) :
    (t ≤ 0 → c.closeExpiredIdleSessions now t = .ok c)
    ∧ (0 < t → (∃ s ∈ c.sessions, s.idleExpireTime = none) →
        ∃ e, c.closeExpiredIdleSessions now t = .error e)
    ∧ (0 < t → ∀ c', c.closeExpiredIdleSessions now t = .ok c' →
        (∀ s' ∈ c'.sessions, s' ∈ c.sessions)
        ∧ (∀ s ∈ c.sessions, ∀ ts : Int, s.idleExpireTime = some ts →
            ((now - ts > t → s ∉ c'.sessions)
              ∧ (now - ts ≤ t → s ∈ c'.sessions)))) := by
  refine ⟨?_, ?_, ?_⟩
  · intro ht
    rw [WiredTigerSessionCache.closeExpiredIdleSessions, if_pos ht]
  · intro ht hex
    rw [WiredTigerSessionCache.closeExpiredIdleSessions, if_neg (by omega)]
    rw [if_pos]
    · exact ⟨_, rfl⟩
    · rw [List.any_eq_true]
      obtain ⟨s, hs, hnone⟩ := hex
      exact ⟨s, hs, by simp [hnone]⟩
  · intro ht c' hok
    rw [WiredTigerSessionCache.closeExpiredIdleSessions,
      if_neg (by omega)] at hok
    by_cases hany : c.sessions.any (fun s => s.idleExpireTime = none) = true
    · rw [if_pos hany] at hok
      simp at hok
    · rw [if_neg hany] at hok
      simp only [Except.ok.injEq] at hok
      constructor
      · intro s' hs'
        rw [← hok] at hs'
        exact (List.mem_filter.mp hs').1
      · intro s hs ts hts
        constructor
        · intro hgt hmem
          rw [← hok] at hmem
          have hkeep := (List.mem_filter.mp hmem).2
          simp only [hts] at hkeep
          simp at hkeep
          omega
        · intro hle
          rw [← hok]
          apply List.mem_filter.mpr
          refine ⟨hs, ?_⟩
          simp only [hts]
          simp
          omega

/-- Witness for `closeExpiredIdleSessions_spec` on `idleBoundaryCache` with
`now = 2000`, `T = 1000`. -/
theorem closeExpiredIdleSessions_spec_witness :
    ((1000 : Int) ≤ 0 → idleBoundaryCache.closeExpiredIdleSessions 2000 1000
        = .ok idleBoundaryCache)
    ∧ ((0 : Int) < 1000 →
        (∃ s ∈ idleBoundaryCache.sessions, s.idleExpireTime = none) →
        ∃ e, idleBoundaryCache.closeExpiredIdleSessions 2000 1000 = .error e)
    ∧ ((0 : Int) < 1000 → ∀ c',
        idleBoundaryCache.closeExpiredIdleSessions 2000 1000 = .ok c' →
        (∀ s' ∈ c'.sessions, s' ∈ idleBoundaryCache.sessions)
        ∧ (∀ s ∈ idleBoundaryCache.sessions, ∀ ts : Int,
            s.idleExpireTime = some ts →
            (((2000 : Int) - ts > 1000 → s ∉ c'.sessions)
              ∧ ((2000 : Int) - ts ≤ 1000 → s ∈ c'.sessions)))) :=
  closeExpiredIdleSessions_spec 2000 1000 idleBoundaryCache

@[simp] lemma WiredTigerSession.resetSessionConfiguration_cursors
    (s : WiredTigerSession) :
    s.resetSessionConfiguration.cursors = s.cursors := rfl

@[simp] lemma WiredTigerSession.closeAllCursors_empty_uri
    (f : Nat → String) (s : WiredTigerSession) :
    (s.closeAllCursors f "").cursors = [] := by
  simp [WiredTigerSession.closeAllCursors]

/-- Counterexample to C8 as stated: with the tunable at exactly 0 (which the
claim counts as hybrid mode, matching `isEngineCachingCursors`'s `<= 0`
test), `releaseSession` does *not* close the session's cached cursors —
`wiredtiger_session_cache.cpp` tests `gWiredTigerCursorCacheSize.load() < 0`
— so a session that cached a cursor while the tunable was positive is pooled
still holding it. -/
theorem releaseSession_hybridZero_counterexample :
    hybridZeroCache.cursorCacheSize ≤ 0
    ∧ hybridZeroCache.isEngineCachingCursors = true
    ∧ hybridZeroSession.cursors ≠ []
    ∧ hybridZeroCache.releaseSession (fun _ => "table:x") 5 hybridZeroSession
        = .ok { hybridZeroCache with
                sessions := [{ hybridZeroSession with idleExpireTime := some 5 }] }
    ∧ ({ hybridZeroSession with idleExpireTime := some 5 }).cursors ≠ [] := by
  refine ⟨by decide, by decide, by decide, ?_, by decide⟩
  rfl

/-- **C8 amended (hybrid-mode cursor close on release).**  On every
`releaseSession` that is not during shutdown, whenever the dynamically read
cursor-cache tunable is *strictly negative*, all of the session's cached
cursors are closed before the session is pooled: any session newly entering
the pool holds no cached cursors.  (At tunable exactly 0 the release path
performs no such close, although `releaseCursor` itself caches nothing at
size 0.) -/
theorem releaseSession_hybrid_closes_cursors (cursorUri : Nat → String)
    (now : Int) (s : WiredTigerSession) (c : WiredTigerSessionCache)
    (hneg : c.cursorCacheSize < 0) :
    ∀ c', c.releaseSession cursorUri now s = .ok c' →
      ∀ s' ∈ c'.sessions, s' ∈ c.sessions ∨ s'.cursors = [] := by
  intro c' hok s' hs'
  by_cases hb : c.isShuttingDown = true
  · rw [WiredTigerSessionCache.releaseSession] at hok
    rw [if_neg (fun hcon => hcon (Or.inr hb)), if_pos hb] at hok
    simp only [Except.ok.injEq] at hok
    rw [← hok] at hs'
    exact Or.inl hs'
  · have hb' : c.isShuttingDown = false := by
      simpa using hb
    by_cases ha : s.cursorsOut = 0
    · rw [WiredTigerSessionCache.releaseSession_not_shutdown cursorUri now s
        c hb' ha] at hok
      by_cases hc : s.epoch = c.epoch
      · rw [if_pos hc] at hok
        simp only [Except.ok.injEq] at hok
        rw [← hok] at hs'
        rcases List.mem_append.mp hs' with h1 | h1
        · exact Or.inl h1
        · right
          rw [List.mem_singleton] at h1
          subst h1
          show ((if c.cursorCacheSize < 0 then s.closeAllCursors cursorUri ""
            else s).resetSessionConfiguration).cursors = []
          rw [if_pos hneg]
          simp
      · rw [if_neg hc] at hok
        by_cases hd : s.epoch < c.epoch
        · rw [if_pos hd] at hok
          simp only [Except.ok.injEq] at hok
          rw [← hok] at hs'
          exact Or.inl hs'
        · rw [if_neg hd] at hok
          simp at hok
    · rw [WiredTigerSessionCache.releaseSession, if_pos] at hok
      · simp at hok
      · intro hcon
        rcases hcon with h1 | h2
        · exact ha h1
        · exact hb h2

/-- Witness for `releaseSession_hybrid_closes_cursors`: tunable -5, a
session holding one cached cursor, released into a matching-epoch cache. -/
theorem releaseSession_hybrid_closes_cursors_witness :
    ((exampleCache (-5)).cursorCacheSize < 0)
    ∧ ∀ c', (exampleCache (-5)).releaseSession (fun _ => "table:x") 5
          hybridZeroSession = .ok c' →
        ∀ s' ∈ c'.sessions,
          s' ∈ (exampleCache (-5)).sessions ∨ s'.cursors = [] :=
  ⟨by decide,
    releaseSession_hybrid_closes_cursors (fun _ => "table:x") 5
      hybridZeroSession (exampleCache (-5)) (by decide)⟩

lemma runScopes_packed (b : Nat) (hb : b ≤ 1) :
    ∀ (ops : List ScopeOp) (count : Nat), count < 2 ^ 31 →
      scopesOk count ops = true →
      runScopes (b * kShuttingDownMask + count) ops
        = b * kShuttingDownMask + inflight count ops
      ∧ inflight count ops < 2 ^ 31 := by
  have hM : kShuttingDownMask = 2 ^ 31 := by decide
  intro ops
  induction ops with
  | nil =>
    intro count hc _
    exact ⟨rfl, hc⟩
  | cons op t ih =>
    intro count hc hok
    cases op with
    | enter =>
      rw [scopesOk] at hok
      simp only [Bool.and_eq_true, decide_eq_true_eq] at hok
      obtain ⟨h1, h2⟩ := hok
      have hstep : blockShutdownEnter (b * kShuttingDownMask + count)
          = b * kShuttingDownMask + (count + 1) := by
        rw [blockShutdownEnter, hM]
        omega
      rw [show runScopes (b * kShuttingDownMask + count) (ScopeOp.enter :: t)
            = runScopes (blockShutdownEnter (b * kShuttingDownMask + count)) t
            from rfl,
          hstep,
          show inflight count (ScopeOp.enter :: t) = inflight (count + 1) t
            from rfl]
      exact ih (count + 1) h1 h2
    | leave =>
      rw [scopesOk] at hok
      simp only [Bool.and_eq_true, decide_eq_true_eq] at hok
      obtain ⟨h1, h2⟩ := hok
      have hstep : blockShutdownLeave (b * kShuttingDownMask + count)
          = b * kShuttingDownMask + (count - 1) := by
        rw [blockShutdownLeave_eq, hM]
        omega
      rw [show runScopes (b * kShuttingDownMask + count) (ScopeOp.leave :: t)
            = runScopes (blockShutdownLeave (b * kShuttingDownMask + count)) t
            from rfl,
          hstep,
          show inflight count (ScopeOp.leave :: t) = inflight (count - 1) t
            from rfl]
      exact ih (count - 1) (by omega) h2

/-- **C9 (packed shutdown word).**  The low 31 bits of the
`_shuttingDown` word count the in-flight `BlockShutdown` scopes: for every
well-formed sequence of scope entries and exits (each entry adds 1, each
exit subtracts 1, with unsigned arithmetic modulo `2^32`; exits balance
earlier entries and fewer than `2^31` scopes are ever simultaneously in
flight), starting from either value `b` of the sticky top bit with no scope
in flight, the count portion (`word % kShuttingDownMask`) tracks the number
of in-flight scopes exactly, never overflows into the sticky top bit, and
the bit portion (`word / kShuttingDownMask`) never changes. -/
theorem blockShutdown_sticky_bit (ops : List ScopeOp) (b : Nat)
    (hb : b ≤ 1) (hok : scopesOk 0 ops = true) :
    runScopes (b * kShuttingDownMask) ops / kShuttingDownMask = b
    ∧ runScopes (b * kShuttingDownMask) ops % kShuttingDownMask
        = inflight 0 ops
    ∧ inflight 0 ops < 2 ^ 31 := by
  obtain ⟨h1, h2⟩ := runScopes_packed b hb ops 0 (by norm_num) hok
  rw [Nat.add_zero] at h1
  have hM : kShuttingDownMask = 2 ^ 31 := by decide
  refine ⟨?_, ?_, h2⟩ <;> rw [h1, hM] <;> omega

/-- Witness for `blockShutdown_sticky_bit`: two entries and one exit with
the sticky bit set. -/
theorem blockShutdown_sticky_bit_witness :
    ((1 : Nat) ≤ 1 ∧ scopesOk 0 [.enter, .enter, .leave] = true)
    ∧ (runScopes (1 * kShuttingDownMask) [.enter, .enter, .leave]
          / kShuttingDownMask = 1
    ∧ runScopes (1 * kShuttingDownMask) [.enter, .enter, .leave]
          % kShuttingDownMask = inflight 0 [.enter, .enter, .leave]
    ∧ inflight 0 [.enter, .enter, .leave] < 2 ^ 31) :=
  ⟨⟨by decide, by decide⟩,
    blockShutdown_sticky_bit [.enter, .enter, .leave] 1 (by decide) (by decide)⟩
